import Mathlib

/-!
# dxcllistener — verification of the connection lifecycle engine

Shallow embedding of the two engine variants of the repository:
`src/listener.rs` (thread + mpsc channel sink) and `src/recorder.rs`
(thread + callback sink).  I/O is modelled as a finite trace of read
events consumed by the worker loop; the stop flag, the outcome of
writes, of sink deliveries and of the socket shutdown are inputs of
each iteration.  Lines are `List Char`; the external spot parser is an
abstract function `List Char → Option σ`.
-/

set_option maxRecDepth 4000

/-- The bell control character `0x07` stripped by `clean_line`. -/
def bellChar : Char := Char.ofNat 7

/-- Whitespace predicate mirroring Rust's `char::is_whitespace` on the
ASCII range (space, `\t`, `\n`, vertical tab, form feed, `\r`); the
protocol only ever produces these. -/
def rustWhitespace (c : Char) : Bool :=
  c = ' ' || c = '\t' || c = '\n' || c = Char.ofNat 11 || c = Char.ofNat 12 || c = '\r'

/-- Remove the longest suffix of `l` whose characters all satisfy `p`
(Rust's `trim_end` / `trim_end_matches` applied to a `List Char`). -/
def rtrimWhile (p : Char → Bool) (l : List Char) : List Char :=
  (l.reverse.dropWhile p).reverse

/-- Embedding of `clean_line` of both `listener.rs` and `recorder.rs` (the two copies
are identical): `line.trim_end().trim_end_matches('\u{0007}')` — first
strip trailing whitespace, then strip trailing bell characters. -/
def clean_line (line : List Char) : List Char :=
  rtrimWhile (fun c => c = bellChar) (rtrimWhile rustWhitespace line)

/-- The authentication tokens `AUTH_TOKEN` of `listener.rs`; the local
`auth_keys` array of `recorder.rs` holds the same two strings. -/
def AUTH_TOKEN : List (List Char) :=
  [("login:".data), ("Please enter your call:".data)]

/-- Embedding of `is_auth_token` of both files: true iff the buffered read starts
with one of the authentication tokens (`str::starts_with`). -/
def is_auth_token (token : List Char) : Bool :=
  AUTH_TOKEN.any (fun key => key.isPrefixOf token)

/-- Modelled from the spec (not from the source): the prompt-matching
policy the spec declares canonical, "suffix match against the entire
buffered read".  Used only to compare against `is_auth_token`. -/
def spec_suffix_auth_token (token : List Char) : Bool :=
  AUTH_TOKEN.any (fun key => key.isSuffixOf token)

/-- The payload `send_line` writes to the stream: `data + "\r\n"`. -/
def send_payload (data : List Char) : List Char :=
  data ++ ['\r', '\n']

/-- Embedding of `ListenError` of `listener.rs`. -/
inductive ListenError where
  | UnknownError
  | ConnectionLost
  | ConnectionError
  | AuthenticationError
  | InternalError
  | AlreadyJoined
  | ReceiverLost
deriving DecidableEq, Repr

/-- Embedding of `RecordError` of `recorder.rs` (note: no `AlreadyJoined`, no
`ReceiverLost`). -/
inductive RecordError where
  | UnknownError
  | ConnectionLost
  | ConnectionError
  | AuthenticationError
  | InternalError
deriving DecidableEq, Repr

/-- Embedding of `State` of both files: the communication phase of the worker. -/
inductive State where
  | Auth
  | Parse
deriving DecidableEq, Repr

/-- One `reader.read_line(&mut line)` outcome, as seen by the worker
loop: `eof` is `Ok(0)`; `fatal` is a non-`WouldBlock` error; `timeout`
is a `WouldBlock` error after having appended `chunk` (possibly empty)
to the line buffer; `newline` is `Ok(n)`, `n > 0`, appending the
complete line `chunk` to the buffer. -/
inductive ReadEv where
  | eof
  | fatal
  | timeout (chunk : List Char)
  | newline (chunk : List Char)
deriving DecidableEq, Repr

/-- Mutable loop state of `run`: the phase, the line buffer and the
remaining timeout budget (`timeout_counter`). -/
structure WState where
  st : State
  buf : List Char
  counter : Nat
deriving DecidableEq, Repr

/-- Outcome of one loop iteration: either the next loop state or the
terminal result of the worker; `sent` lists the spots delivered to the
sink by this iteration, `wrote` the payloads written to the stream. -/
structure StepRes (ε σ : Type) where
  out : WState ⊕ Except ε Unit
  sent : List σ
  wrote : List (List Char)

/-- Cumulative result of running the loop on an input trace. -/
structure RunRes (ε σ : Type) where
  out : WState ⊕ Except ε Unit
  sent : List σ
  wrote : List (List Char)

namespace Listener

/-- Environment of one iteration of `listener.rs::run`: the read event,
the value of the stop check `!signal.load(..)` performed right after
the read, whether `send_line` (a `write_all`) would succeed, and
whether `pipe.send` would succeed. -/
structure Input where
  ev : ReadEv
  stopRequested : Bool
  sendOk : Bool
  sinkOk : Bool
deriving DecidableEq, Repr

/-- One iteration of the communication loop of `listener.rs::run`,
translated arm by arm.  `parse` is the external `dxclparser::parse`;
`callsign` the credential sent on a recognised prompt. -/
def step {σ : Type} (parse : List Char → Option σ) (callsign : List Char)
    (i : Input) (s : WState) : StepRes ListenError σ :=
  match i.ev with
  | .eof => ⟨.inr (.error .ConnectionLost), [], []⟩
  | .fatal => ⟨.inr (.error .UnknownError), [], []⟩
  | .timeout c =>
    let buf := s.buf ++ c
    if i.stopRequested then ⟨.inr (.ok ()), [], []⟩
    else match s.st with
      | .Auth =>
        if is_auth_token buf then
          if i.sendOk then
            ⟨.inl ⟨.Parse, buf, s.counter⟩, [], [send_payload callsign]⟩
          else
            ⟨.inr (.error .UnknownError), [], [send_payload callsign]⟩
        else
          if s.counter - 1 = 0 then
            ⟨.inr (.error .AuthenticationError), [], []⟩
          else
            ⟨.inl ⟨.Auth, buf, s.counter - 1⟩, [], []⟩
      | .Parse => ⟨.inl ⟨.Parse, buf, s.counter⟩, [], []⟩
  | .newline c =>
    let buf := s.buf ++ c
    if i.stopRequested then ⟨.inr (.ok ()), [], []⟩
    else match s.st with
      | .Auth =>
        if is_auth_token buf then
          if i.sendOk then
            ⟨.inl ⟨.Parse, buf, s.counter⟩, [], [send_payload callsign]⟩
          else
            ⟨.inr (.error .UnknownError), [], [send_payload callsign]⟩
        else
          ⟨.inl ⟨.Auth, [], s.counter⟩, [], []⟩
      | .Parse =>
        match parse (clean_line buf) with
        | some spot =>
          if i.sinkOk then ⟨.inl ⟨.Parse, [], s.counter⟩, [spot], []⟩
          else ⟨.inr (.error .ReceiverLost), [], []⟩
        | none => ⟨.inl ⟨.Parse, [], s.counter⟩, [], []⟩

/-- The communication loop of `listener.rs::run` over a finite input
trace; inputs after termination are ignored. -/
def runLoop {σ : Type} (parse : List Char → Option σ) (callsign : List Char)
    (inputs : List Input) (s : WState) : RunRes ListenError σ :=
  match inputs with
  | [] => ⟨.inl s, [], []⟩
  | i :: rest =>
    let r := step parse callsign i s
    match r.out with
    | .inl s' =>
      let t := runLoop parse callsign rest s'
      ⟨t.out, r.sent ++ t.sent, r.wrote ++ t.wrote⟩
    | .inr res => ⟨.inr res, r.sent, r.wrote⟩

/-- Initial loop state of `listener.rs::run`: state `Auth`, empty line
buffer, `timeout_counter = 20`. -/
def initState : WState := ⟨.Auth, [], 20⟩

end Listener

namespace Recorder

/-- Outcome of `recorder.rs::send_line`'s `stream.write`: `Ok(n)` with
`n > 0`, `Ok(0)`, or an error. -/
inductive SendRes where
  | ok
  | wroteZero
  | err
deriving DecidableEq, Repr

/-- Environment of one iteration of `recorder.rs::run`: the read event,
the stop check, the outcome `send_line` would have, and whether
`stream.shutdown` (performed on a requested stop) would succeed. -/
structure Input where
  ev : ReadEv
  stopRequested : Bool
  send : SendRes
  shutdownOk : Bool
deriving DecidableEq, Repr

/-- One iteration of the communication loop of `recorder.rs::run`.  On
an observed stop the recorder shuts the socket down and the `?` on
`shutdown` turns a shutdown failure into `Err(InternalError)`.  The
callback sink cannot fail. -/
def step {σ : Type} (parse : List Char → Option σ) (callsign : List Char)
    (i : Input) (s : WState) : StepRes RecordError σ :=
  match i.ev with
  | .eof => ⟨.inr (.error .ConnectionLost), [], []⟩
  | .fatal => ⟨.inr (.error .UnknownError), [], []⟩
  | .timeout c =>
    let buf := s.buf ++ c
    if i.stopRequested then
      if i.shutdownOk then ⟨.inr (.ok ()), [], []⟩
      else ⟨.inr (.error .InternalError), [], []⟩
    else match s.st with
      | .Auth =>
        if is_auth_token buf then
          match i.send with
          | .ok => ⟨.inl ⟨.Parse, buf, s.counter⟩, [], [send_payload callsign]⟩
          | .wroteZero => ⟨.inr (.error .ConnectionLost), [], [send_payload callsign]⟩
          | .err => ⟨.inr (.error .UnknownError), [], [send_payload callsign]⟩
        else
          if s.counter - 1 = 0 then
            ⟨.inr (.error .AuthenticationError), [], []⟩
          else
            ⟨.inl ⟨.Auth, buf, s.counter - 1⟩, [], []⟩
      | .Parse => ⟨.inl ⟨.Parse, buf, s.counter⟩, [], []⟩
  | .newline c =>
    let buf := s.buf ++ c
    if i.stopRequested then
      if i.shutdownOk then ⟨.inr (.ok ()), [], []⟩
      else ⟨.inr (.error .InternalError), [], []⟩
    else match s.st with
      | .Auth =>
        if is_auth_token buf then
          match i.send with
          | .ok => ⟨.inl ⟨.Parse, buf, s.counter⟩, [], [send_payload callsign]⟩
          | .wroteZero => ⟨.inr (.error .ConnectionLost), [], [send_payload callsign]⟩
          | .err => ⟨.inr (.error .UnknownError), [], [send_payload callsign]⟩
        else
          ⟨.inl ⟨.Auth, [], s.counter⟩, [], []⟩
      | .Parse =>
        match parse (clean_line buf) with
        | some spot => ⟨.inl ⟨.Parse, [], s.counter⟩, [spot], []⟩
        | none => ⟨.inl ⟨.Parse, [], s.counter⟩, [], []⟩

/-- The communication loop of `recorder.rs::run` over a finite trace. -/
def runLoop {σ : Type} (parse : List Char → Option σ) (callsign : List Char)
    (inputs : List Input) (s : WState) : RunRes RecordError σ :=
  match inputs with
  | [] => ⟨.inl s, [], []⟩
  | i :: rest =>
    let r := step parse callsign i s
    match r.out with
    | .inl s' =>
      let t := runLoop parse callsign rest s'
      ⟨t.out, r.sent ++ t.sent, r.wrote ++ t.wrote⟩
    | .inr res => ⟨.inr res, r.sent, r.wrote⟩

/-- Initial loop state of `recorder.rs::run`: state `Auth`, empty line
buffer, `timeout_counter = 10`. -/
def initState : WState := ⟨.Auth, [], 10⟩

end Recorder

namespace Listener

/-- The supervisor state of `listener.rs::Listener`: the identity
fields, the shared `run` flag and the optional worker handle.  A
present handle stands for a worker whose terminal result (available
once the worker has terminated, which `join` waits for) is the stored
value. -/
structure Sup where
  host : List Char
  port : Nat
  callsign : List Char
  run : Bool
  handle : Option (Except ListenError Unit)

/-- Embedding of `Listener::new`: pure construction, `run = false`, no handle. -/
def new (host : List Char) (port : Nat) (callsign : List Char) : Sup :=
  ⟨host, port, callsign, false, none⟩

/-- Embedding of `Listener::join`: `handle.take()` returns the stored handle and
leaves `None`; a taken handle yields the worker's terminal result, an
absent one yields `Err(AlreadyJoined)`. -/
def join (l : Sup) : Except ListenError Unit × Sup :=
  match l.handle with
  | some r => (r, { l with handle := none })
  | none => (.error .AlreadyJoined, { l with handle := none })

/-- Embedding of `Listener::request_stop`: stores `false` into the `run` flag. -/
def request_stop (l : Sup) : Sup :=
  { l with run := false }

/-- The writes performed on the shared `run` flag of one `Listener`, in
program order: `request_stop` stores `false`; `listen` stores `false`
on entry; the spawned worker stores `true` as its first action and
`false` when it exits. -/
inductive FlagOp where
  | requestStop
  | listenEntry
  | workerStart
  | workerExit
deriving DecidableEq, Repr

/-- Effect of one flag write on the `run` flag. -/
def applyFlagOp (_flag : Bool) (op : FlagOp) : Bool :=
  match op with
  | .requestStop => false
  | .listenEntry => false
  | .workerStart => true
  | .workerExit => false

/-- Value of the `run` flag after a sequence of writes. -/
def flagAfter (flag : Bool) (ops : List FlagOp) : Bool :=
  ops.foldl applyFlagOp flag

/-- The synchronous connect phase of `Listener::listen`: `dns` is
`none` when `to_socket_addrs` fails, otherwise the list of resolved
addresses, each `true` when `TcpStream::connect_timeout` to it would
succeed; `spawnOk` is whether `thread::Builder::spawn` would succeed.
Returns the synchronous result paired with whether a worker thread was
spawned. -/
def listenConnect (dns : Option (List Bool)) (spawnOk : Bool) :
    Except ListenError Unit × Bool :=
  match dns with
  | none => (.error .ConnectionError, false)
  | some addrs =>
    if addrs.any id then
      if spawnOk then (.ok (), true) else (.error .InternalError, false)
    else
      (.error .ConnectionError, false)

end Listener

namespace Recorder

/-- Embedding of `Recorder::join`, which is `self.handle.take().unwrap().join().unwrap()`:
with a handle present it yields the worker's terminal result and leaves
the handle `None`; with no handle the `unwrap()` of `Option::take`'s
`None` panics, modelled as `none`. -/
def join (handle : Option (Except RecordError Unit)) :
    Option (Except RecordError Unit × Option (Except RecordError Unit)) :=
  match handle with
  | some r => some (r, none)
  | none => none

/-- The synchronous part of `recorder.rs::record`: the worker thread is
spawned before any connection attempt, so the only synchronous failure
is a spawn failure (`InternalError`). -/
def recordSync (spawnOk : Bool) : Except RecordError Unit :=
  if spawnOk then .ok () else .error .InternalError

/-- Whether `record` spawned a worker thread. -/
def recordSpawned (spawnOk : Bool) : Bool := spawnOk

/-- The connect step executed inside the spawned worker of `record`:
on failure the worker's terminal result is `Err(ConnectionError)`,
surfaced only through `join`; on success the worker proceeds to the
communication loop (`none` here). -/
def recordWorkerConnect (connectOk : Bool) : Option RecordError :=
  if connectOk then none else some .ConnectionError

end Recorder

/-- Predicate `noMatch buf cs` holds when, starting from line buffer `buf` and
appending the chunks of `cs` one by one, no intermediate buffer is ever
accepted by `is_auth_token` — i.e. no matching prompt is ever present
in the buffered read. -/
def noMatch : List Char → List (List Char) → Bool
  | _, [] => true
  | buf, c :: cs => !is_auth_token (buf ++ c) && noMatch (buf ++ c) cs

/-- A concrete instantiation of the external parser that fails on every
line (used to exercise the engine at concrete inputs). -/
def noParse : List Char → Option Nat := fun _ => none

namespace Listener

/-- An iteration environment whose read timed out with chunk `c`, with
no stop requested and all I/O healthy. -/
def timeoutInput (c : List Char) : Input := ⟨.timeout c, false, true, true⟩

/-- A trace made only of timing-out reads. -/
def timeoutTrace (cs : List (List Char)) : List Input :=
  cs.map timeoutInput

/-- Whether this iteration observes the stop request: the flag is down
and the read outcome reaches the cancellation check (`Ok(0)` and fatal
errors break out of the loop before the check). -/
def Input.observesStop (i : Input) : Bool :=
  i.stopRequested &&
    (match i.ev with
     | .timeout _ => true
     | .newline _ => true
     | _ => false)

end Listener

namespace Recorder

/-- An iteration environment whose read timed out with chunk `c`, with
no stop requested and all I/O healthy. -/
def timeoutInput (c : List Char) : Input := ⟨.timeout c, false, .ok, true⟩

/-- A trace made only of timing-out reads. -/
def timeoutTrace (cs : List (List Char)) : List Input :=
  cs.map timeoutInput

/-- Whether this iteration observes the stop request (see
`Listener.Input.observesStop`). -/
def Input.observesStop (i : Input) : Bool :=
  i.stopRequested &&
    (match i.ev with
     | .timeout _ => true
     | .newline _ => true
     | _ => false)

end Recorder

/-! ## Helper lemmas -/

/-- The head of `dropWhile p` never satisfies `p`. -/
theorem head_dropWhile_not {α : Type} (p : α → Bool) (l : List α) (a : α)
    (h : (l.dropWhile p).head? = some a) : p a = false := by
  induction l with
  | nil => simp [List.dropWhile] at h
  | cons x xs ih =>
    rw [List.dropWhile_cons] at h
    by_cases hx : p x = true
    · simp [hx] at h
      exact ih h
    · simp [hx] at h
      subst h
      simpa using hx

/-- The last element of `rtrimWhile p l` never satisfies `p`. -/
theorem rtrimWhile_getLast (p : Char → Bool) (l : List Char) (a : Char)
    (h : (rtrimWhile p l).getLast? = some a) : p a = false := by
  unfold rtrimWhile at h
  rw [List.getLast?_reverse] at h
  exact head_dropWhile_not p l.reverse a h

namespace Listener

/-- An iteration that observes the stop request terminates the listener
worker with `Ok(())`, delivering nothing and writing nothing. -/
theorem stepL_observesStop {σ : Type} (parse : List Char → Option σ)
    (call : List Char) (i : Input) (s : WState)
    (h : i.observesStop = true) :
    step parse call i s = ⟨.inr (.ok ()), [], []⟩ := by
  obtain ⟨ev, stop, sendOk, sinkOk⟩ := i
  simp only [Input.observesStop] at h
  obtain ⟨hstop, hev⟩ := Bool.and_eq_true _ _ |>.mp h
  cases ev <;> simp_all [step]

/-- Splitting a listener trace at a point where the loop is still
running: the tail continues from the intermediate state and outputs
accumulate in order. -/
theorem runLoopL_append_inl {σ : Type} (parse : List Char → Option σ)
    (call : List Char) (xs ys : List Input) (s s' : WState)
    (h : (runLoop parse call xs s).out = .inl s') :
    runLoop parse call (xs ++ ys) s =
      ⟨(runLoop parse call ys s').out,
       (runLoop parse call xs s).sent ++ (runLoop parse call ys s').sent,
       (runLoop parse call xs s).wrote ++ (runLoop parse call ys s').wrote⟩ := by
  induction xs generalizing s with
  | nil =>
    simp only [runLoop] at h
    cases h
    simp [runLoop]
  | cons i rest ih =>
    rw [List.cons_append]
    simp only [runLoop] at h ⊢
    cases hstep : (step parse call i s).out with
    | inl s1 =>
      simp only [hstep] at h ⊢
      rw [ih s1 h]
      simp
    | inr r =>
      simp only [hstep] at h
      exact Sum.noConfusion h

/-- Once the listener loop has terminated, appended inputs change
nothing. -/
theorem runLoopL_append_inr {σ : Type} (parse : List Char → Option σ)
    (call : List Char) (xs ys : List Input) (s : WState)
    (r : Except ListenError Unit)
    (h : (runLoop parse call xs s).out = .inr r) :
    runLoop parse call (xs ++ ys) s = runLoop parse call xs s := by
  induction xs generalizing s with
  | nil => simp [runLoop] at h
  | cons i rest ih =>
    rw [List.cons_append]
    simp only [runLoop] at h ⊢
    cases hstep : (step parse call i s).out with
    | inl s1 =>
      simp only [hstep] at h ⊢
      rw [ih s1 h]
    | inr r2 =>
      simp only [hstep]

end Listener

namespace Recorder

/-- An iteration that observes the stop request terminates the recorder
worker: with `Ok(())` when the socket shutdown succeeds, with
`Err(InternalError)` when it fails; nothing is delivered or written
either way. -/
theorem stepR_observesStop {σ : Type} (parse : List Char → Option σ)
    (call : List Char) (i : Input) (s : WState)
    (h : i.observesStop = true) :
    step parse call i s =
      ⟨.inr (if i.shutdownOk then .ok () else .error .InternalError), [], []⟩ := by
  obtain ⟨ev, stop, send, shutdownOk⟩ := i
  simp only [Input.observesStop] at h
  obtain ⟨hstop, hev⟩ := Bool.and_eq_true _ _ |>.mp h
  cases ev <;> cases shutdownOk <;> simp_all [step]

/-- Splitting a recorder trace at a point where the loop is still
running. -/
theorem runLoopR_append_inl {σ : Type} (parse : List Char → Option σ)
    (call : List Char) (xs ys : List Input) (s s' : WState)
    (h : (runLoop parse call xs s).out = .inl s') :
    runLoop parse call (xs ++ ys) s =
      ⟨(runLoop parse call ys s').out,
       (runLoop parse call xs s).sent ++ (runLoop parse call ys s').sent,
       (runLoop parse call xs s).wrote ++ (runLoop parse call ys s').wrote⟩ := by
  induction xs generalizing s with
  | nil =>
    simp only [runLoop] at h
    cases h
    simp [runLoop]
  | cons i rest ih =>
    rw [List.cons_append]
    simp only [runLoop] at h ⊢
    cases hstep : (step parse call i s).out with
    | inl s1 =>
      simp only [hstep] at h ⊢
      rw [ih s1 h]
      simp
    | inr r =>
      simp only [hstep] at h
      exact Sum.noConfusion h

end Recorder

/-! ## Claims -/

/-- Claim C2, counterexample: the run flag is not monotone.  After
`request_stop` the flag is `false` (signaled), yet a subsequent
`listen()` entry and worker spawn store `true` again: a stop requested
before `listen` is silently overwritten back to the running state, and
`listen` neither rejects it nor short-circuits. -/
theorem C2_counterexample :
    Listener.flagAfter false [Listener.FlagOp.requestStop] = false
    ∧ Listener.flagAfter false
        [Listener.FlagOp.requestStop, Listener.FlagOp.listenEntry,
         Listener.FlagOp.workerStart] = true :=
  ⟨rfl, rfl⟩

/-- Claim C2, amended: the run flag is only monotone in the absence of
a worker spawn.  After `request_stop` stores `false`, the flag stays
`false` under any further sequence of writes that contains no
`workerStart` (further stop requests, `listen` entry, worker exit),
because the spawned worker's initial `store(true)` is the only write of
`true` anywhere in the program. -/
theorem C2_flag_stays_cleared (b : Bool) (ops : List Listener.FlagOp)
    (h : Listener.FlagOp.workerStart ∉ ops) :
    Listener.flagAfter b (Listener.FlagOp.requestStop :: ops) = false := by
  suffices hgen : ∀ l : List Listener.FlagOp, Listener.FlagOp.workerStart ∉ l →
      Listener.flagAfter false l = false by
    exact hgen ops h
  intro l hl
  induction l with
  | nil => rfl
  | cons op rest ih =>
    simp only [List.mem_cons, not_or] at hl
    obtain ⟨hop, hrest⟩ := hl
    have h1 : Listener.applyFlagOp false op = false := by
      cases op with
      | requestStop => rfl
      | listenEntry => rfl
      | workerExit => rfl
      | workerStart => exact absurd rfl hop
    have h2 : Listener.flagAfter false (op :: rest) =
        Listener.flagAfter (Listener.applyFlagOp false op) rest := rfl
    rw [h2, h1]
    exact ih hrest

/-- Claim C2, witness: concrete application of the amended theorem. -/
theorem C2_witness :
    Listener.flagAfter true
      [Listener.FlagOp.requestStop, Listener.FlagOp.listenEntry,
       Listener.FlagOp.workerExit] = false :=
  C2_flag_stays_cleared true [Listener.FlagOp.listenEntry, Listener.FlagOp.workerExit]
    (by decide)

/-- Claim C3, counterexample: the claim fails for the `Recorder`.  The
first `join` takes the handle and leaves `None`; the second call runs
`self.handle.take().unwrap()` on `None`, which panics (modelled as
`none`) instead of returning `AlreadyJoined` — indeed `RecordError` has
no `AlreadyJoined` variant at all. -/
theorem C3_counterexample :
    Recorder.join (some (Except.ok ())) = some (Except.ok (), none)
    ∧ Recorder.join none = none :=
  ⟨rfl, rfl⟩

/-- Claim C3, amended: for the `Listener`, the first `join` returns the
worker's terminal result and every later call returns
`Err(AlreadyJoined)` without blocking; for the `Recorder`, the first
`join` returns the terminal result but a second call panics (the
`unwrap` of `Option::take`'s `None`), modelled as `none`. -/
theorem C3_join_semantics (r : Except ListenError Unit) (l : Listener.Sup)
    (r2 : Except RecordError Unit) :
    Listener.join { l with handle := some r } = (r, { l with handle := none })
    ∧ Listener.join { l with handle := none } =
        (Except.error ListenError.AlreadyJoined, { l with handle := none })
    ∧ Recorder.join (some r2) = some (r2, none)
    ∧ Recorder.join none = none :=
  ⟨rfl, rfl, rfl, rfl⟩

/-- Claim C4, counterexample: the claim fails for `record`.  With a
healthy spawn and a failing TCP connection, `record` returns `Ok`
synchronously and a worker thread is spawned; the connect failure
becomes the worker's terminal result (`Err(ConnectionError)`), visible
only through `join`. -/
theorem C4_counterexample :
    Recorder.recordSync true = Except.ok ()
    ∧ Recorder.recordSpawned true = true
    ∧ Recorder.recordWorkerConnect false = some RecordError.ConnectionError :=
  ⟨rfl, rfl, rfl⟩

/-- Claim C4, amended: `Listener::listen` returns connect failures
(DNS failure or every resolved address refusing the connection)
synchronously as `Err(ConnectionError)` and spawns no worker; `record`
instead spawns its worker before connecting, so its only synchronous
failure is a spawn failure (`InternalError`) and a connect failure
surfaces as the worker's terminal result through `join`. -/
theorem C4_connect_failures (dns : Option (List Bool)) (spawnOk : Bool)
    (hfail : (dns.getD []).any id = false) :
    Listener.listenConnect dns spawnOk = (Except.error ListenError.ConnectionError, false)
    ∧ Recorder.recordWorkerConnect false = some RecordError.ConnectionError
    ∧ Recorder.recordSync false = Except.error RecordError.InternalError := by
  refine ⟨?_, rfl, rfl⟩
  match dns with
  | none => rfl
  | some addrs =>
    simp only [Option.getD] at hfail
    simp [Listener.listenConnect, hfail]

/-- Claim C4, witness: concrete application of the amended theorem. -/
theorem C4_witness :
    Listener.listenConnect (some [false, false]) true =
      (Except.error ListenError.ConnectionError, false)
    ∧ Recorder.recordWorkerConnect false = some RecordError.ConnectionError
    ∧ Recorder.recordSync false = Except.error RecordError.InternalError :=
  C4_connect_failures (some [false, false]) true (by decide)

/-- Claim C10, confirmed: a `Listener` built by `new` has no worker
handle, so `join` immediately returns `Err(AlreadyJoined)` without
blocking. -/
theorem C10_join_never_started (h : List Char) (p : Nat) (c : List Char) :
    Listener.join (Listener.new h p c) =
      (Except.error ListenError.AlreadyJoined, Listener.new h p c) :=
  rfl

/-- Claim C6, counterexample: prompt matching is prefix matching
(`starts_with`), not the suffix matching the claim states.  The
buffered read `"login:x"` is accepted by `is_auth_token` although no
authentication token is a suffix of it. -/
theorem C6_counterexample :
    is_auth_token ("login:x".data) = true
    ∧ spec_suffix_auth_token ("login:x".data) = false :=
  ⟨rfl, by decide⟩

/-- Claim C6, amended: during authentication a buffered read —
whether it accumulated through timed-out partial reads or arrived as a
complete line — is accepted if and only if one of {"login:", "Please
enter your call:"} is a prefix of it; on acceptance with a healthy
stream, exactly one write of `callsign + "\r\n"` is performed and the
worker transitions to the streaming (`Parse`) state, in both variants;
a non-accepted read writes nothing. -/
theorem C6_prompt_acceptance {σ τ : Type} (parseL : List Char → Option σ)
    (parseR : List Char → Option τ) (call : List Char)
    (i : Listener.Input) (j : Recorder.Input) (s t : WState) (c d : List Char)
    (hs : s.st = .Auth) (hi : i.stopRequested = false)
    (hie : i.ev = .newline c ∨ i.ev = .timeout c)
    (hsend : i.sendOk = true)
    (ht : t.st = .Auth) (hj : j.stopRequested = false)
    (hje : j.ev = .newline d ∨ j.ev = .timeout d)
    (hjs : j.send = .ok) :
    (is_auth_token (s.buf ++ c) = true ↔
      ∃ key ∈ AUTH_TOKEN, key.isPrefixOf (s.buf ++ c) = true)
    ∧ (is_auth_token (s.buf ++ c) = true →
        Listener.step parseL call i s =
          ⟨.inl ⟨.Parse, s.buf ++ c, s.counter⟩, [], [send_payload call]⟩)
    ∧ (is_auth_token (s.buf ++ c) = false →
        (Listener.step parseL call i s).wrote = [])
    ∧ (is_auth_token (t.buf ++ d) = true →
        Recorder.step parseR call j t =
          ⟨.inl ⟨.Parse, t.buf ++ d, t.counter⟩, [], [send_payload call]⟩)
    ∧ (is_auth_token (t.buf ++ d) = false →
        (Recorder.step parseR call j t).wrote = []) := by
  obtain ⟨st, buf, k⟩ := s
  obtain ⟨st2, buf2, k2⟩ := t
  simp only at hs ht
  subst hs
  subst ht
  refine ⟨?_, ?_, ?_, ?_, ?_⟩
  · simp [is_auth_token, List.any_eq_true]
  · intro htok
    rcases hie with hie | hie <;> simp [Listener.step, hie, hi, hsend, htok]
  · intro htok
    rcases hie with hie | hie
    · simp [Listener.step, hie, hi, htok]
    · by_cases hk : k - 1 = 0 <;> simp [Listener.step, hie, hi, htok, hk]
  · intro htok
    rcases hje with hje | hje <;> simp [Recorder.step, hje, hj, hjs, htok]
  · intro htok
    rcases hje with hje | hje
    · simp [Recorder.step, hje, hj, htok]
    · by_cases hk : k2 - 1 = 0 <;> simp [Recorder.step, hje, hj, htok, hk]

/-- Claim C6, witness: the prompt `"login:"` arriving without a
trailing newline, accumulated in the buffer of a timed-out read, is
accepted and triggers the single callsign write in both variants. -/
theorem C6_witness :
    (is_auth_token ([] ++ "login:".data) = true ↔
      ∃ key ∈ AUTH_TOKEN, key.isPrefixOf ([] ++ "login:".data) = true)
    ∧ (is_auth_token ([] ++ "login:".data) = true →
        Listener.step noParse ("W1AW".data)
          ⟨ReadEv.timeout ("login:".data), false, true, true⟩ ⟨.Auth, [], 20⟩ =
          ⟨.inl ⟨.Parse, [] ++ "login:".data, 20⟩, [], [send_payload ("W1AW".data)]⟩)
    ∧ (is_auth_token ([] ++ "login:".data) = false →
        (Listener.step noParse ("W1AW".data)
          ⟨ReadEv.timeout ("login:".data), false, true, true⟩ ⟨.Auth, [], 20⟩).wrote = [])
    ∧ (is_auth_token ([] ++ "login:".data) = true →
        Recorder.step noParse ("W1AW".data)
          ⟨ReadEv.timeout ("login:".data), false, .ok, true⟩ ⟨.Auth, [], 10⟩ =
          ⟨.inl ⟨.Parse, [] ++ "login:".data, 10⟩, [], [send_payload ("W1AW".data)]⟩)
    ∧ (is_auth_token ([] ++ "login:".data) = false →
        (Recorder.step noParse ("W1AW".data)
          ⟨ReadEv.timeout ("login:".data), false, .ok, true⟩ ⟨.Auth, [], 10⟩).wrote = []) :=
  C6_prompt_acceptance noParse noParse ("W1AW".data)
    ⟨ReadEv.timeout ("login:".data), false, true, true⟩
    ⟨ReadEv.timeout ("login:".data), false, .ok, true⟩
    ⟨.Auth, [], 20⟩ ⟨.Auth, [], 10⟩ ("login:".data) ("login:".data)
    rfl rfl (Or.inr rfl) rfl rfl rfl (Or.inr rfl) rfl

/-- Claim C9, confirmed: a line on which the external parser fails is
dropped in both variants — nothing is delivered to the sink, nothing is
written, the buffer is cleared and the worker loop continues. -/
theorem C9_parse_failure_dropped {σ τ : Type} (parseL : List Char → Option σ)
    (parseR : List Char → Option τ) (call : List Char)
    (i : Listener.Input) (j : Recorder.Input) (s t : WState) (c d : List Char)
    (hs : s.st = .Parse) (hi : i.stopRequested = false) (hie : i.ev = .newline c)
    (hp : parseL (clean_line (s.buf ++ c)) = none)
    (ht : t.st = .Parse) (hj : j.stopRequested = false) (hje : j.ev = .newline d)
    (hq : parseR (clean_line (t.buf ++ d)) = none) :
    Listener.step parseL call i s = ⟨.inl ⟨.Parse, [], s.counter⟩, [], []⟩
    ∧ Recorder.step parseR call j t = ⟨.inl ⟨.Parse, [], t.counter⟩, [], []⟩ := by
  constructor
  · obtain ⟨st, buf, k⟩ := s
    simp only at hs hp
    subst hs
    simp [Listener.step, hie, hi, hp]
  · obtain ⟨st, buf, k⟩ := t
    simp only at ht hq
    subst ht
    simp [Recorder.step, hje, hj, hq]

/-- Claim C9, witness: a malformed line (`noParse` rejects every line)
is dropped and both loops continue. -/
theorem C9_witness :
    Listener.step noParse [] ⟨ReadEv.newline ("junk\n".data), false, true, true⟩
        ⟨.Parse, [], 20⟩ = ⟨.inl ⟨.Parse, [], 20⟩, [], []⟩
    ∧ Recorder.step noParse [] ⟨ReadEv.newline ("junk\n".data), false, .ok, true⟩
        ⟨.Parse, [], 10⟩ = ⟨.inl ⟨.Parse, [], 10⟩, [], []⟩ :=
  C9_parse_failure_dropped noParse noParse []
    ⟨ReadEv.newline ("junk\n".data), false, true, true⟩
    ⟨ReadEv.newline ("junk\n".data), false, .ok, true⟩
    ⟨.Parse, [], 20⟩ ⟨.Parse, [], 10⟩ ("junk\n".data) ("junk\n".data)
    rfl rfl rfl rfl rfl rfl rfl rfl

/-- Claim C1, counterexample: the claim fails for the `Recorder`.  When
the stop request is observed, the recorder shuts the socket down
before breaking out of the loop, and the `?` on `shutdown` turns a
shutdown failure into the terminal result `Err(InternalError)` — an
error from `join` after a requested stop, not `Ok(())`. -/
theorem C1_counterexample :
    Recorder.step noParse [] ⟨ReadEv.timeout [], true, .ok, false⟩ Recorder.initState =
      ⟨.inr (.error RecordError.InternalError), [], []⟩ :=
  rfl

/-- Claim C1, amended: once the worker observes the stop request at a
cancellation check, the `Listener` terminates with `Ok(())` and the
`Recorder` terminates with `Ok(())` when the socket shutdown succeeds
and with `Err(InternalError)` when it fails; in both variants the trace
delivers no further spot and performs no further write at or after the
observation. -/
theorem C1_stop_semantics {σ τ : Type} (parseL : List Char → Option σ)
    (parseR : List Char → Option τ) (call : List Char)
    (pre : List Listener.Input) (i : Listener.Input) (post : List Listener.Input)
    (s' : WState)
    (preR : List Recorder.Input) (j : Recorder.Input) (postR : List Recorder.Input)
    (t' : WState)
    (hpre : (Listener.runLoop parseL call pre Listener.initState).out = .inl s')
    (hi : i.observesStop = true)
    (hpreR : (Recorder.runLoop parseR call preR Recorder.initState).out = .inl t')
    (hj : j.observesStop = true) :
    Listener.runLoop parseL call (pre ++ i :: post) Listener.initState =
      ⟨.inr (.ok ()),
       (Listener.runLoop parseL call pre Listener.initState).sent,
       (Listener.runLoop parseL call pre Listener.initState).wrote⟩
    ∧ Recorder.runLoop parseR call (preR ++ j :: postR) Recorder.initState =
      ⟨.inr (if j.shutdownOk then .ok () else .error .InternalError),
       (Recorder.runLoop parseR call preR Recorder.initState).sent,
       (Recorder.runLoop parseR call preR Recorder.initState).wrote⟩ := by
  constructor
  · have hstep := Listener.stepL_observesStop parseL call i s' hi
    have htail : Listener.runLoop parseL call (i :: post) s' = ⟨.inr (.ok ()), [], []⟩ := by
      simp [Listener.runLoop, hstep]
    rw [Listener.runLoopL_append_inl parseL call pre (i :: post) Listener.initState s' hpre,
      htail]
    simp
  · have hstep := Recorder.stepR_observesStop parseR call j t' hj
    have htail : Recorder.runLoop parseR call (j :: postR) t' =
        ⟨.inr (if j.shutdownOk then .ok () else .error .InternalError), [], []⟩ := by
      simp [Recorder.runLoop, hstep]
    rw [Recorder.runLoopR_append_inl parseR call preR (j :: postR) Recorder.initState t' hpreR,
      htail]
    simp

/-- Claim C1, witness: a stop observed at the first cancellation check
terminates both variants, the `Recorder` with a healthy shutdown. -/
theorem C1_witness :
    Listener.runLoop noParse [] ([] ++ ⟨ReadEv.timeout [], true, true, true⟩ :: [])
        Listener.initState =
      ⟨.inr (.ok ()),
       (Listener.runLoop noParse [] [] Listener.initState).sent,
       (Listener.runLoop noParse [] [] Listener.initState).wrote⟩
    ∧ Recorder.runLoop noParse [] ([] ++ ⟨ReadEv.timeout [], true, .ok, true⟩ :: [])
        Recorder.initState =
      ⟨.inr (if (⟨ReadEv.timeout [], true, .ok, true⟩ : Recorder.Input).shutdownOk
             then .ok () else .error .InternalError),
       (Recorder.runLoop noParse [] [] Recorder.initState).sent,
       (Recorder.runLoop noParse [] [] Recorder.initState).wrote⟩ :=
  C1_stop_semantics noParse noParse []
    [] ⟨ReadEv.timeout [], true, true, true⟩ [] Listener.initState
    [] ⟨ReadEv.timeout [], true, .ok, true⟩ [] Recorder.initState
    rfl rfl rfl rfl

/-- During authentication, a trace of timing-out reads none of whose
accumulated buffers matches a prompt exhausts the listener's budget:
with `k ≤ |cs|` remaining timeouts allowed, the worker terminates with
`AuthenticationError`, delivering nothing and writing nothing. -/
theorem Listener.authL_timeouts_exhaust {σ : Type} (parse : List Char → Option σ)
    (call : List Char) (cs : List (List Char)) (buf : List Char) (k : Nat)
    (hk : 1 ≤ k) (hlen : k ≤ cs.length) (hnm : noMatch buf cs = true) :
    runLoop parse call (timeoutTrace cs) ⟨.Auth, buf, k⟩ =
      ⟨.inr (.error .AuthenticationError), [], []⟩ := by
  induction cs generalizing buf k with
  | nil =>
    simp only [List.length_nil, Nat.le_zero] at hlen
    omega
  | cons c rest ih =>
    simp only [noMatch, Bool.and_eq_true, Bool.not_eq_true'] at hnm
    obtain ⟨htok, hrest⟩ := hnm
    have hstep : step parse call (timeoutInput c) ⟨.Auth, buf, k⟩ =
        if k - 1 = 0 then ⟨.inr (.error .AuthenticationError), [], []⟩
        else ⟨.inl ⟨.Auth, buf ++ c, k - 1⟩, [], []⟩ := by
      simp [step, timeoutInput, htok]
    rw [show timeoutTrace (c :: rest) = timeoutInput c :: timeoutTrace rest from rfl]
    by_cases hk1 : k - 1 = 0
    · rw [if_pos hk1] at hstep
      simp [runLoop, hstep]
    · rw [if_neg hk1] at hstep
      have hlen' : k - 1 ≤ rest.length := by
        simp only [List.length_cons] at hlen
        omega
      have hrec := ih (buf ++ c) (k - 1) (by omega) hlen' hrest
      simp [runLoop, hstep, hrec]

/-- During authentication, fewer timing-out non-matching reads than the
remaining budget leave the listener still authenticating, with the
budget decremented once per timeout and the chunks accumulated in the
buffer. -/
theorem Listener.authL_timeouts_survive {σ : Type} (parse : List Char → Option σ)
    (call : List Char) (cs : List (List Char)) (buf : List Char) (k : Nat)
    (hlen : cs.length < k) (hnm : noMatch buf cs = true) :
    runLoop parse call (timeoutTrace cs) ⟨.Auth, buf, k⟩ =
      ⟨.inl ⟨.Auth, cs.foldl (· ++ ·) buf, k - cs.length⟩, [], []⟩ := by
  induction cs generalizing buf k with
  | nil => simp [timeoutTrace, runLoop]
  | cons c rest ih =>
    simp only [noMatch, Bool.and_eq_true, Bool.not_eq_true'] at hnm
    obtain ⟨htok, hrest⟩ := hnm
    have hk1 : ¬ (k - 1 = 0) := by
      simp only [List.length_cons] at hlen
      omega
    have hstep : step parse call (timeoutInput c) ⟨.Auth, buf, k⟩ =
        ⟨.inl ⟨.Auth, buf ++ c, k - 1⟩, [], []⟩ := by
      simp [step, timeoutInput, htok, hk1]
    have hlen' : rest.length < k - 1 := by
      simp only [List.length_cons] at hlen
      omega
    have hrec := ih (buf ++ c) (k - 1) hlen' hrest
    have hcnt : k - 1 - rest.length = k - (rest.length + 1) := by omega
    rw [hcnt] at hrec
    rw [show timeoutTrace (c :: rest) = timeoutInput c :: timeoutTrace rest from rfl]
    simp [runLoop, hstep, hrec, List.foldl_cons]

/-- During authentication, a trace of timing-out reads none of whose
accumulated buffers matches a prompt exhausts the recorder's budget
(`k ≤ |cs|`): termination with `AuthenticationError`, nothing delivered
or written. -/
theorem Recorder.authR_timeouts_exhaust {σ : Type} (parse : List Char → Option σ)
    (call : List Char) (cs : List (List Char)) (buf : List Char) (k : Nat)
    (hk : 1 ≤ k) (hlen : k ≤ cs.length) (hnm : noMatch buf cs = true) :
    runLoop parse call (timeoutTrace cs) ⟨.Auth, buf, k⟩ =
      ⟨.inr (.error .AuthenticationError), [], []⟩ := by
  induction cs generalizing buf k with
  | nil =>
    simp only [List.length_nil, Nat.le_zero] at hlen
    omega
  | cons c rest ih =>
    simp only [noMatch, Bool.and_eq_true, Bool.not_eq_true'] at hnm
    obtain ⟨htok, hrest⟩ := hnm
    have hstep : step parse call (timeoutInput c) ⟨.Auth, buf, k⟩ =
        if k - 1 = 0 then ⟨.inr (.error .AuthenticationError), [], []⟩
        else ⟨.inl ⟨.Auth, buf ++ c, k - 1⟩, [], []⟩ := by
      simp [step, timeoutInput, htok]
    rw [show timeoutTrace (c :: rest) = timeoutInput c :: timeoutTrace rest from rfl]
    by_cases hk1 : k - 1 = 0
    · rw [if_pos hk1] at hstep
      simp [runLoop, hstep]
    · rw [if_neg hk1] at hstep
      have hlen' : k - 1 ≤ rest.length := by
        simp only [List.length_cons] at hlen
        omega
      have hrec := ih (buf ++ c) (k - 1) (by omega) hlen' hrest
      simp [runLoop, hstep, hrec]

/-- During authentication, fewer timing-out non-matching reads than the
remaining budget leave the recorder still authenticating. -/
theorem Recorder.authR_timeouts_survive {σ : Type} (parse : List Char → Option σ)
    (call : List Char) (cs : List (List Char)) (buf : List Char) (k : Nat)
    (hlen : cs.length < k) (hnm : noMatch buf cs = true) :
    runLoop parse call (timeoutTrace cs) ⟨.Auth, buf, k⟩ =
      ⟨.inl ⟨.Auth, cs.foldl (· ++ ·) buf, k - cs.length⟩, [], []⟩ := by
  induction cs generalizing buf k with
  | nil => simp [timeoutTrace, runLoop]
  | cons c rest ih =>
    simp only [noMatch, Bool.and_eq_true, Bool.not_eq_true'] at hnm
    obtain ⟨htok, hrest⟩ := hnm
    have hk1 : ¬ (k - 1 = 0) := by
      simp only [List.length_cons] at hlen
      omega
    have hstep : step parse call (timeoutInput c) ⟨.Auth, buf, k⟩ =
        ⟨.inl ⟨.Auth, buf ++ c, k - 1⟩, [], []⟩ := by
      simp [step, timeoutInput, htok, hk1]
    have hlen' : rest.length < k - 1 := by
      simp only [List.length_cons] at hlen
      omega
    have hrec := ih (buf ++ c) (k - 1) hlen' hrest
    have hcnt : k - 1 - rest.length = k - (rest.length + 1) := by omega
    rw [hcnt] at hrec
    rw [show timeoutTrace (c :: rest) = timeoutInput c :: timeoutTrace rest from rfl]
    simp [runLoop, hstep, hrec, List.foldl_cons]

/-- Claim C5, counterexample: the retry budget of `listener.rs` is 20,
not 10.  After 10 timeouts with no matching prompt the listener worker
is still authenticating (counter down to 10), instead of having
terminated with `AuthenticationError` as the claim states. -/
theorem C5_counterexample :
    Listener.runLoop noParse [] (Listener.timeoutTrace (List.replicate 10 []))
        Listener.initState = ⟨.inl ⟨.Auth, [], 10⟩, [], []⟩ :=
  rfl

/-- Claim C5, amended: with every bounded read timing out and no
matching prompt ever present in the buffer, the worker terminates with
`AuthenticationError` after exactly the configured retry budget — 20
consecutive timeouts for the `Listener`, 10 for the `Recorder` — and
the callsign is never written (no write occurs at all); with fewer
timeouts than the budget the listener worker is still running. -/
theorem C5_retry_budget {σ τ : Type} (parseL : List Char → Option σ)
    (parseR : List Char → Option τ) (call : List Char)
    (cs ds es : List (List Char))
    (h20 : cs.length = 20) (hcs : noMatch [] cs = true)
    (h10 : ds.length = 10) (hds : noMatch [] ds = true)
    (hlt : es.length < 20) (hes : noMatch [] es = true) :
    Listener.runLoop parseL call (Listener.timeoutTrace cs) Listener.initState =
      ⟨.inr (.error .AuthenticationError), [], []⟩
    ∧ Recorder.runLoop parseR call (Recorder.timeoutTrace ds) Recorder.initState =
      ⟨.inr (.error .AuthenticationError), [], []⟩
    ∧ Listener.runLoop parseL call (Listener.timeoutTrace es) Listener.initState =
      ⟨.inl ⟨.Auth, es.foldl (· ++ ·) [], 20 - es.length⟩, [], []⟩ := by
  refine ⟨?_, ?_, ?_⟩
  · exact Listener.authL_timeouts_exhaust parseL call cs [] 20 (by omega) (by omega) hcs
  · exact Recorder.authR_timeouts_exhaust parseR call ds [] 10 (by omega) (by omega) hds
  · exact Listener.authL_timeouts_survive parseL call es [] 20 hlt hes

/-- Claim C5, witness: twenty silent timeouts exhaust the listener,
ten exhaust the recorder, nineteen leave the listener running. -/
theorem C5_witness :
    Listener.runLoop noParse [] (Listener.timeoutTrace (List.replicate 20 []))
        Listener.initState = ⟨.inr (.error .AuthenticationError), [], []⟩
    ∧ Recorder.runLoop noParse [] (Recorder.timeoutTrace (List.replicate 10 []))
        Recorder.initState = ⟨.inr (.error .AuthenticationError), [], []⟩
    ∧ Listener.runLoop noParse [] (Listener.timeoutTrace (List.replicate 19 []))
        Listener.initState =
      ⟨.inl ⟨.Auth, (List.replicate 19 ([] : List Char)).foldl (· ++ ·) [],
        20 - (List.replicate 19 ([] : List Char)).length⟩, [], []⟩ :=
  C5_retry_budget noParse noParse []
    (List.replicate 20 []) (List.replicate 10 []) (List.replicate 19 [])
    (by decide) (by decide) (by decide) (by decide) (by decide) (by decide)

/-- Claim C7, counterexample: the timeout counter does not count only
consecutive timeouts and is never reset by a full line.  One timeout,
then a complete non-matching line, then 19 more timeouts — an unbroken
run of at most 19 — still exhausts the listener's budget of 20 and
terminates with `AuthenticationError`; under the claimed reset
semantics the worker would still be authenticating. -/
theorem C7_counterexample :
    Listener.runLoop noParse []
      (Listener.timeoutInput [] ::
        (⟨ReadEv.newline ("x\n".data), false, true, true⟩ : Listener.Input) ::
        Listener.timeoutTrace (List.replicate 19 []))
      Listener.initState = ⟨.inr (.error .AuthenticationError), [], []⟩ :=
  rfl

/-- Claim C7, amended: during authentication a full non-matching line
clears the buffer but leaves the timeout counter unchanged — it is not
reset to the initial budget — while each non-matching timeout
decrements it by one, failing with `AuthenticationError` on exhaustion;
so the total number of authentication-phase timeouts, consecutive or
not, exhausts the budget.  This holds in both variants. -/
theorem C7_counter_not_reset {σ τ : Type} (parseL : List Char → Option σ)
    (parseR : List Char → Option τ) (call : List Char)
    (i : Listener.Input) (j : Recorder.Input) (s t : WState) (c d : List Char)
    (hs : s.st = .Auth) (hi : i.stopRequested = false)
    (hnm : is_auth_token (s.buf ++ c) = false)
    (ht : t.st = .Auth) (hj : j.stopRequested = false)
    (hnd : is_auth_token (t.buf ++ d) = false) :
    (i.ev = .newline c →
      Listener.step parseL call i s = ⟨.inl ⟨.Auth, [], s.counter⟩, [], []⟩)
    ∧ (i.ev = .timeout c → s.counter - 1 ≠ 0 →
      Listener.step parseL call i s = ⟨.inl ⟨.Auth, s.buf ++ c, s.counter - 1⟩, [], []⟩)
    ∧ (i.ev = .timeout c → s.counter - 1 = 0 →
      Listener.step parseL call i s = ⟨.inr (.error .AuthenticationError), [], []⟩)
    ∧ (j.ev = .newline d →
      Recorder.step parseR call j t = ⟨.inl ⟨.Auth, [], t.counter⟩, [], []⟩)
    ∧ (j.ev = .timeout d → t.counter - 1 ≠ 0 →
      Recorder.step parseR call j t = ⟨.inl ⟨.Auth, t.buf ++ d, t.counter - 1⟩, [], []⟩)
    ∧ (j.ev = .timeout d → t.counter - 1 = 0 →
      Recorder.step parseR call j t = ⟨.inr (.error .AuthenticationError), [], []⟩) := by
  obtain ⟨st, buf, k⟩ := s
  obtain ⟨st2, buf2, k2⟩ := t
  simp only at hs ht hnm hnd
  subst hs
  subst ht
  refine ⟨?_, ?_, ?_, ?_, ?_, ?_⟩
  · intro hie
    simp [Listener.step, hie, hi, hnm]
  · intro hie hk
    simp [Listener.step, hie, hi, hnm, hk]
  · intro hie hk
    simp [Listener.step, hie, hi, hnm, hk]
  · intro hje
    simp [Recorder.step, hje, hj, hnd]
  · intro hje hk
    simp [Recorder.step, hje, hj, hnd, hk]
  · intro hje hk
    simp [Recorder.step, hje, hj, hnd, hk]

/-- Claim C7, witness: a complete non-matching line leaves the
counters of both variants untouched; a timeout decrements them. -/
theorem C7_witness :
    ((⟨ReadEv.newline ("x\n".data), false, true, true⟩ : Listener.Input).ev =
        .newline ("x\n".data) →
      Listener.step noParse [] ⟨ReadEv.newline ("x\n".data), false, true, true⟩
        ⟨.Auth, [], 19⟩ = ⟨.inl ⟨.Auth, [], 19⟩, [], []⟩)
    ∧ ((⟨ReadEv.newline ("x\n".data), false, true, true⟩ : Listener.Input).ev =
        .timeout ("x\n".data) → 19 - 1 ≠ 0 →
      Listener.step noParse [] ⟨ReadEv.newline ("x\n".data), false, true, true⟩
        ⟨.Auth, [], 19⟩ = ⟨.inl ⟨.Auth, [] ++ "x\n".data, 19 - 1⟩, [], []⟩)
    ∧ ((⟨ReadEv.newline ("x\n".data), false, true, true⟩ : Listener.Input).ev =
        .timeout ("x\n".data) → 19 - 1 = 0 →
      Listener.step noParse [] ⟨ReadEv.newline ("x\n".data), false, true, true⟩
        ⟨.Auth, [], 19⟩ = ⟨.inr (.error .AuthenticationError), [], []⟩)
    ∧ ((⟨ReadEv.timeout ("y".data), false, .ok, true⟩ : Recorder.Input).ev =
        .newline ("y".data) →
      Recorder.step noParse [] ⟨ReadEv.timeout ("y".data), false, .ok, true⟩
        ⟨.Auth, [], 9⟩ = ⟨.inl ⟨.Auth, [], 9⟩, [], []⟩)
    ∧ ((⟨ReadEv.timeout ("y".data), false, .ok, true⟩ : Recorder.Input).ev =
        .timeout ("y".data) → 9 - 1 ≠ 0 →
      Recorder.step noParse [] ⟨ReadEv.timeout ("y".data), false, .ok, true⟩
        ⟨.Auth, [], 9⟩ = ⟨.inl ⟨.Auth, [] ++ "y".data, 9 - 1⟩, [], []⟩)
    ∧ ((⟨ReadEv.timeout ("y".data), false, .ok, true⟩ : Recorder.Input).ev =
        .timeout ("y".data) → 9 - 1 = 0 →
      Recorder.step noParse [] ⟨ReadEv.timeout ("y".data), false, .ok, true⟩
        ⟨.Auth, [], 9⟩ = ⟨.inr (.error .AuthenticationError), [], []⟩) :=
  C7_counter_not_reset noParse noParse []
    ⟨ReadEv.newline ("x\n".data), false, true, true⟩
    ⟨ReadEv.timeout ("y".data), false, .ok, true⟩
    ⟨.Auth, [], 19⟩ ⟨.Auth, [], 9⟩ ("x\n".data) ("y".data)
    rfl rfl rfl rfl rfl rfl

/-- Claim C8, counterexample: `clean_line` strips trailing whitespace
first and trailing bells second, so a `\r` standing before a trailing
bell survives: the received line `"x\r\x07\n"` is passed to the parser
as `"x\r"`, whose last character is `\r` — the trailing `\r` is not
stripped as the claim states. -/
theorem C8_counterexample :
    clean_line ['x', '\r', bellChar, '\n'] = ['x', '\r']
    ∧ (clean_line ['x', '\r', bellChar, '\n']).getLast? = some '\r' :=
  ⟨rfl, rfl⟩

/-- Claim C8, amended: after authentication each received line yields
at most one sink delivery per iteration (in both variants), deliveries
accumulate strictly in trace order, and the line handed to the parser
is the buffer cleaned by stripping trailing whitespace (including `\r`
and `\n`) and then trailing bell characters — the cleaned line never
ends in a bell, but whitespace or `\r` standing before a stripped bell
is preserved.  A successfully parsed line with a healthy sink is
delivered exactly once and the buffer is cleared. -/
theorem C8_line_handling {σ τ : Type} (parseL : List Char → Option σ)
    (parseR : List Char → Option τ) (call : List Char) (l : List Char)
    (i : Listener.Input) (j : Recorder.Input) (s t s0 : WState)
    (pre post : List Listener.Input) (c : List Char) (spot : σ) :
    (clean_line l).getLast? ≠ some bellChar
    ∧ (Listener.step parseL call i s).sent.length ≤ 1
    ∧ (Recorder.step parseR call j t).sent.length ≤ 1
    ∧ (∃ extra, (Listener.runLoop parseL call (pre ++ post) s0).sent =
        (Listener.runLoop parseL call pre s0).sent ++ extra)
    ∧ (s.st = .Parse → i.stopRequested = false → i.ev = .newline c →
        i.sinkOk = true → parseL (clean_line (s.buf ++ c)) = some spot →
        Listener.step parseL call i s = ⟨.inl ⟨.Parse, [], s.counter⟩, [spot], []⟩) := by
  refine ⟨?_, ?_, ?_, ?_, ?_⟩
  · intro h
    have := rtrimWhile_getLast (fun ch => ch = bellChar)
      (rtrimWhile rustWhitespace l) bellChar h
    simp at this
  · obtain ⟨ev, stop, sendOk, sinkOk⟩ := i
    obtain ⟨st, buf, k⟩ := s
    cases ev with
    | eof => simp [Listener.step]
    | fatal => simp [Listener.step]
    | timeout c2 =>
      cases stop
      · cases st
        · simp only [Listener.step]
          split_ifs <;> simp
        · simp [Listener.step]
      · simp [Listener.step]
    | newline c2 =>
      cases stop
      · cases st
        · simp only [Listener.step]
          split_ifs <;> simp
        · simp only [Listener.step]
          rcases hp : parseL (clean_line (buf ++ c2)) with _ | sp
          · simp [hp]
          · simp only [hp]
            split_ifs <;> simp
      · simp [Listener.step]
  · obtain ⟨ev, stop, send, shutdownOk⟩ := j
    obtain ⟨st, buf, k⟩ := t
    cases ev with
    | eof => simp [Recorder.step]
    | fatal => simp [Recorder.step]
    | timeout c2 =>
      cases stop
      · cases st
        · simp only [Recorder.step]
          cases send <;> split_ifs <;> simp
        · simp [Recorder.step]
      · simp only [Recorder.step]
        split_ifs <;> simp
    | newline c2 =>
      cases stop
      · cases st
        · simp only [Recorder.step]
          cases send <;> split_ifs <;> simp
        · simp only [Recorder.step]
          rcases hp : parseR (clean_line (buf ++ c2)) with _ | sp <;> simp [hp]
      · simp only [Recorder.step]
        split_ifs <;> simp
  · cases hout : (Listener.runLoop parseL call pre s0).out with
    | inl s1 =>
      refine ⟨(Listener.runLoop parseL call post s1).sent, ?_⟩
      rw [Listener.runLoopL_append_inl parseL call pre post s0 s1 hout]
    | inr r =>
      refine ⟨[], ?_⟩
      rw [Listener.runLoopL_append_inr parseL call pre post s0 r hout]
      simp
  · intro hs hi hie hsink hp
    obtain ⟨st, buf, k⟩ := s
    simp only at hs hp
    subst hs
    simp [Listener.step, hie, hi, hsink, hp]

/-- Claim C8, witness: concrete application of the amended theorem; in
particular a parsed line is delivered exactly once with the cleaned
text handed to the parser. -/
theorem C8_witness :
    (clean_line ("spot data \x07\r\n".data)).getLast? ≠ some bellChar
    ∧ (Listener.step (fun l2 => some l2.length) []
        ⟨ReadEv.newline ("DX\n".data), false, true, true⟩ ⟨.Parse, [], 20⟩).sent.length ≤ 1
    ∧ (Recorder.step (fun l2 => some l2.length) []
        ⟨ReadEv.newline ("DX\n".data), false, .ok, true⟩ ⟨.Parse, [], 10⟩).sent.length ≤ 1
    ∧ (∃ extra, (Listener.runLoop (fun l2 => some l2.length) []
        ([Listener.timeoutInput []] ++ [Listener.timeoutInput []]) ⟨.Parse, [], 20⟩).sent =
        (Listener.runLoop (fun l2 => some l2.length) []
          [Listener.timeoutInput []] ⟨.Parse, [], 20⟩).sent ++ extra)
    ∧ ((⟨.Parse, [], 20⟩ : WState).st = .Parse →
        (⟨ReadEv.newline ("DX\n".data), false, true, true⟩ : Listener.Input).stopRequested = false →
        (⟨ReadEv.newline ("DX\n".data), false, true, true⟩ : Listener.Input).ev =
          .newline ("DX\n".data) →
        (⟨ReadEv.newline ("DX\n".data), false, true, true⟩ : Listener.Input).sinkOk = true →
        (fun l2 => some l2.length) (clean_line (([] : List Char) ++ "DX\n".data)) = some 2 →
        Listener.step (fun l2 => some l2.length) []
          ⟨ReadEv.newline ("DX\n".data), false, true, true⟩ ⟨.Parse, [], 20⟩ =
          ⟨.inl ⟨.Parse, [], 20⟩, [2], []⟩) :=
  C8_line_handling (fun l2 => some l2.length) (fun l2 => some l2.length) []
    ("spot data \x07\r\n".data)
    ⟨ReadEv.newline ("DX\n".data), false, true, true⟩
    ⟨ReadEv.newline ("DX\n".data), false, .ok, true⟩
    ⟨.Parse, [], 20⟩ ⟨.Parse, [], 10⟩ ⟨.Parse, [], 20⟩
    [Listener.timeoutInput []] [Listener.timeoutInput []] ("DX\n".data) 2
